import Mathlib

/-!
Verification development for the BirkenTempProfiler repository
(src/birkentempprofiler.py).  The Python source is shallowly embedded:
pure fragments become Lean functions, raising code returns `Except PyErr`,
and the external collaborators (the HTTP request, the geodesic distance
function and ISO-8601 parsing of the start string) are passed in as
explicit function parameters.
-/

/-- Exception classes that can arise in the embedded code, together with the
error classes named by the specification's taxonomy (`weatherUnavailableError`,
`malformedTrackError`, `invalidStartTimeError`, `emptyForecastError`); the
latter four are never defined nor raised anywhere in the Python source, they
are included so that statements about them can be expressed and refuted. -/
inductive PyErr where
  | keyError
  | valueError
  | typeError
  | indexError
  | nameError
  | weatherUnavailableError
  | malformedTrackError
  | invalidStartTimeError
  | emptyForecastError
deriving DecidableEq, Repr

/-- A timezone-aware Python `datetime.datetime`: the absolute instant it
denotes (seconds since the epoch, in UTC) plus the UTC offset of its
representation.  `astimezone(timezone.utc)` keeps the instant and sets the
offset to 0; equality of aware datetimes in Python compares instants only. -/
structure Timestamp where
  instant : Int
  tzOffset : Int
deriving DecidableEq, Repr, Inhabited

/-- Model of `startTime.astimezone(datetime.timezone.utc)`: same instant,
representation offset 0. -/
def Timestamp.toUTC (t : Timestamp) : Timestamp := ⟨t.instant, 0⟩

/-- Model of `t1 - t2` on aware datetimes: the timedelta, in seconds. -/
def Timestamp.sub (t s : Timestamp) : Int := t.instant - s.instant

/-- Model of `d + delta` (datetime plus timedelta): shifts the instant and
keeps the tzinfo of `d`. -/
def Timestamp.add (d : Timestamp) (delta : Int) : Timestamp :=
  ⟨d.instant + delta, d.tzOffset⟩

/-- Fractional decimal digits of the fraction `num / den` (with
`num < den`), up to `fuel` digits, stopping when the remainder hits zero
(so no trailing zeros are produced). -/
def fracDigits : Nat → Nat → Nat → List Nat
  | 0, _, _ => []
  | fuel + 1, num, den =>
    if num = 0 then []
    else (num * 10 / den) :: fracDigits fuel (num * 10 % den) den

/-- Concatenation of decimal digits as a string. -/
def digitsToStr (ds : List Nat) : String :=
  String.join (ds.map (fun d => toString d))

/-- Models Python's `str()` applied to a float whose decimal literal is its
own shortest round-trip representation (true of every coordinate literal
appearing in the claims, e.g. `str(60.1234) = "60.1234"`,
`str(500.0) = "500.0"`): optional sign, integer part, a dot, then the
fractional digits, with a single `0` after the dot when the value is
integral. -/
def pyFloatStr (q : Rat) : String :=
  let sign := if q.num < 0 then "-" else ""
  let n := q.num.natAbs
  let ip := n / q.den
  let ds := fracDigits 20 (n % q.den) q.den
  sign ++ toString ip ++ "." ++ (if ds = [] then "0" else digitsToStr ds)

/-- Models the replace call that turns every dot into an underscore: the
pattern is a single character, so it is a character-wise substitution. -/
def replaceDots (s : String) : String :=
  String.mk (s.data.map (fun c => if c = '.' then '_' else c))

/-- Embeds line 310 of `appendMET2GPX`, the cache fingerprint of one track
sample: the f-string interpolation of lat, lon and ele joined by
underscores, with every decimal point then replaced by an underscore. -/
def METDataKey (lat lon ele : Rat) : String :=
  replaceDots (pyFloatStr lat ++ "_" ++ pyFloatStr lon ++ "_" ++ pyFloatStr ele)

/-- The details object found under data, then instant, of one MET forecast
entry: the six fields read by `appendMET2GPX` (lines 320-325). -/
structure InstantDetails where
  air_temperature_percentile_90 : Rat
  air_temperature_percentile_10 : Rat
  relative_humidity : Rat
  wind_speed : Rat
  cloud_area_fraction : Rat
  wind_from_direction : Rat
deriving DecidableEq, Repr, Inhabited

/-- The instant object inside the data block of a forecast entry. -/
structure InstantBlock where
  details : InstantDetails
deriving DecidableEq, Repr, Inhabited

/-- The data block of a forecast entry. -/
structure EntryData where
  instant : InstantBlock
deriving DecidableEq, Repr, Inhabited

/-- One element of the timeseries list under the MET response properties:
a forecast timestamp (already parsed, as `datetime.datetime.fromisoformat`
does at line 270) and its data block. -/
structure TimeEntry where
  time : Timestamp
  data : EntryData
deriving DecidableEq, Repr, Inhabited

/-- The properties object of a MET response. -/
structure METProperties where
  timeseries : List TimeEntry
deriving DecidableEq, Repr, Inhabited

/-- A parsed MET `locationforecast` JSON response, restricted to the parts
the program reads. -/
structure METData where
  properties : METProperties
deriving DecidableEq, Repr, Inhabited

/-- A concrete forecast entry used in concrete evaluations. -/
def sampleEntry (t : Int) : TimeEntry :=
  ⟨⟨t, 0⟩, ⟨⟨⟨9, 1, 80, 3, 50, 180⟩⟩⟩⟩

/-- A concrete MET response used in concrete evaluations. -/
def sampleMET : METData :=
  ⟨⟨[sampleEntry 0, sampleEntry 3600, sampleEntry 7200]⟩⟩

/-- Claim C10: the cache fingerprint is a deterministic function of the
(latitude, longitude, elevation) triple — identical triples yield identical
fingerprints — and the triples (60.1234, 10.5678, 500.0) and
(60.1234, 10.5678, 501.0), which agree on latitude and longitude but differ
in elevation by 1.0, yield different fingerprints. -/
theorem METDataKey_deterministic_elevation_sensitive :
    (∀ lat₁ lon₁ ele₁ lat₂ lon₂ ele₂ : Rat,
      lat₁ = lat₂ → lon₁ = lon₂ → ele₁ = ele₂ →
      METDataKey lat₁ lon₁ ele₁ = METDataKey lat₂ lon₂ ele₂) ∧
    METDataKey (mkRat 601234 10000) (mkRat 105678 10000) (mkRat 500 1) ≠
      METDataKey (mkRat 601234 10000) (mkRat 105678 10000) (mkRat 501 1) := by
  constructor
  · intro a b c a2 b2 c2 h1 h2 h3
    rw [h1, h2, h3]
  · decide

/-- Witness for the determinism half of claim C10 at the coordinates named
in the claim. -/
theorem METDataKey_deterministic_witness :
    METDataKey (mkRat 601234 10000) (mkRat 105678 10000) (mkRat 500 1) =
      METDataKey (mkRat 601234 10000) (mkRat 105678 10000) (mkRat 500 1) :=
  METDataKey_deterministic_elevation_sensitive.1 _ _ _ _ _ _ rfl rfl rfl

/-- The in-memory MET cache: a Python dict from fingerprint strings to the
raw result of one fetch.  The value type is `Option METData` because the
declared fallback of `_METurlRequstFunction` is `return None` and line 313
stores that result unconditionally.  One entry per key, insertion order
kept, as in a Python dict. -/
abbrev METCache := List (String × Option METData)

/-- Python dict assignment `d[k] = v`: overwrites the entry in place when
the key is present, appends a new entry at the end otherwise. -/
def dictInsert : METCache → String → Option METData → METCache
  | [], k, v => [(k, v)]
  | p :: c, k, v => if p.1 == k then (k, v) :: c else p :: dictInsert c k v

/-- Embeds lines 294-300 of `appendMET2GPX`: when fresh mode is not
requested and `METdata.pkl` exists, the pickled cache is loaded; otherwise
the cache starts empty and `fresh` is forced to `True`.  The optional
on-disk pickle is passed in explicitly. -/
def loadCache (fresh : Bool) (pickleFile : Option METCache) : Bool × METCache :=
  match fresh, pickleFile with
  | false, some c => (false, c)
  | _, _ => (true, [])

/-- Embeds lines 311-315 of `appendMET2GPX`, the per-sample get-or-fetch:
`if fresh:` call `_METurlRequstFunction` and assign `METdata[key]`;
`else: outputMET = METdata[key]`, a plain dict lookup that raises
`KeyError` when the fingerprint is absent.  The fetch is passed in as a
function so that its call/no-call behaviour is observable. -/
def cacheStep (fresh : Bool) (cache : METCache) (key : String)
    (fetchFn : Unit → Except PyErr (Option METData)) :
    Except PyErr (Option METData × METCache) :=
  if fresh then
    match fetchFn () with
    | .ok out => .ok (out, dictInsert cache key out)
    | .error e => .error e
  else
    match cache.lookup key with
    | some v => .ok (v, cache)
    | none => .error .keyError

theorem lookup_dictInsert_self (c : METCache) (k : String) (v : Option METData) :
    (dictInsert c k v).lookup k = some v := by
  induction c with
  | nil => simp [dictInsert, List.lookup]
  | cons p c ih =>
    cases hpk : (p.1 == k) with
    | true => simp [dictInsert, hpk, List.lookup]
    | false =>
      have hkp : (k == p.1) = false := by
        rw [beq_eq_false_iff_ne] at hpk ⊢
        exact fun hh => hpk hh.symm
      simp [dictInsert, hpk, List.lookup, hkp, ih]

/-- Claim C1 (amended): when fresh mode is in force, lookup is bypassed, the
fetch function is always called and its result overwrites any entry under
the fingerprint; fresh mode is also forced whenever no persisted cache
exists.  When fresh mode is not in force (which requires a loaded persisted
cache), a present entry is returned unchanged, but a missing fingerprint
raises `KeyError` — the fetch function is not called as a fallback. -/
theorem cache_get_or_fetch_spec :
    (∀ (c : METCache) (k : String) (v : Option METData),
      cacheStep true c k (fun _ => .ok v) = .ok (v, dictInsert c k v) ∧
      (dictInsert c k v).lookup k = some v) ∧
    (∀ (c : METCache) (k : String) (v : Option METData)
      (f : Unit → Except PyErr (Option METData)),
      c.lookup k = some v → cacheStep false c k f = .ok (v, c)) ∧
    (∀ (c : METCache) (k : String) (f : Unit → Except PyErr (Option METData)),
      c.lookup k = none → cacheStep false c k f = .error .keyError) ∧
    (∀ file, loadCache true file = (true, [])) ∧
    (∀ c, loadCache false (some c) = (false, c)) ∧
    loadCache false none = (true, []) := by
  refine ⟨fun c k v => ⟨rfl, lookup_dictInsert_self c k v⟩, fun c k v f h => ?_,
    fun c k f h => ?_, fun file => by cases file <;> rfl, fun c => rfl, rfl⟩
  · simp [cacheStep, h]
  · simp [cacheStep, h]

/-- Witness for claim C1's amended theorem: a concrete cached entry is
served without fetching, and a concrete fresh fetch overwrites. -/
theorem cache_get_or_fetch_spec_witness :
    cacheStep false [("60_0", some sampleMET)] "60_0" (fun _ => .ok none) =
      .ok (some sampleMET, [("60_0", some sampleMET)]) :=
  cache_get_or_fetch_spec.2.1 _ _ _ _ rfl

/-- Claim C1, counterexample: fresh mode not requested, the loaded cache
holds some other fingerprint, and the requested fingerprint is missing —
the code raises `KeyError`; it does not call the fetch function and store
its result as the claim states. -/
theorem cache_get_or_fetch_counterexample :
    cacheStep false [("60_0_10_0_500_0", some sampleMET)] "61_0_10_0_500_0"
      (fun _ => .ok (some sampleMET)) = .error .keyError := rfl

/-- Python's builtin `min(xs, key=f)` on a list (line 275): the first
element attaining the minimal key — a left-to-right scan that replaces the
current minimum only on a strictly smaller key, so on a tie the earlier
element wins. -/
def pyMin (key : Timestamp → Nat) : List Timestamp → Option Timestamp
  | [] => none
  | x :: xs =>
    some (match pyMin key xs with
      | none => x
      | some m => if key m < key x then m else x)

/-- Python's `list.index(a)` (line 277) where the elements are aware
datetimes: the first index whose element compares equal to `a` — and
datetime equality compares the denoted instants, not their textual
offsets. -/
def pyIndex (a : Timestamp) : List Timestamp → Option Nat
  | [] => none
  | x :: xs =>
    if x.instant == a.instant then some 0
    else (pyIndex a xs).map (· + 1)

/-- Embeds `_findClosestTimeIndex` (lines 258-277): reads the timeseries
under the MET response properties, takes each entry's parsed time, and
returns `times.index(min(times, key=lambda x: abs(x - time)))`.  The MET
argument is an `Option` because `appendMET2GPX` passes the raw fetch
result, which the code's fallback path declares as `None`: subscripting
`None` raises `TypeError`.  Python's `min` raises `ValueError` on an empty
sequence, as does `.index` on a missing element. -/
def findClosestTimeIndex (time : Timestamp) (METdata : Option METData) : Except PyErr Nat :=
  match METdata with
  | none => .error .typeError
  | some m =>
    let times := m.properties.timeseries.map (fun e => e.time)
    match pyMin (fun x => (x.sub time).natAbs) times with
    | none => .error .valueError
    | some c =>
      match pyIndex c times with
      | none => .error .valueError
      | some i => .ok i

theorem pyMin_first (key : Timestamp → Nat) :
    ∀ (l : List Timestamp) (m : Timestamp), pyMin key l = some m →
      ∃ p, ∃ hp : p < l.length, l.get ⟨p, hp⟩ = m ∧
        (∀ y ∈ l, key m ≤ key y) ∧
        ∀ q, ∀ hq : q < l.length, q < p → key m < key (l.get ⟨q, hq⟩) := by
  intro l
  induction l with
  | nil => intro m h; simp [pyMin] at h
  | cons x xs ih =>
    intro m h
    cases hxs : pyMin key xs with
    | none =>
      have hm : m = x := by
        simp [pyMin, hxs] at h
        exact h.symm
      subst hm
      have hxsnil : xs = [] := by
        cases xs with
        | nil => rfl
        | cons y ys => simp [pyMin] at hxs
      subst hxsnil
      exact ⟨0, by simp, rfl, by simp, fun q hq hq0 => absurd hq0 (by omega)⟩
    | some m' =>
      obtain ⟨p', hp', hgp', hmin', hfirst'⟩ := ih m' hxs
      by_cases hlt : key m' < key x
      · have hm : m = m' := by
          simp [pyMin, hxs, hlt] at h
          exact h.symm
        subst hm
        refine ⟨p' + 1, by simpa using Nat.succ_lt_succ hp', by simpa using hgp', ?_, ?_⟩
        · intro y hy
          rcases List.mem_cons.mp hy with hy | hy
          · subst hy; exact Nat.le_of_lt hlt
          · exact hmin' y hy
        · intro q hq hqp
          cases q with
          | zero => simpa using hlt
          | succ q' =>
            have hq' : q' < xs.length := by simpa using hq
            have : q' < p' := by omega
            simpa using hfirst' q' hq' this
      · have hm : m = x := by
          simp [pyMin, hxs, hlt] at h
          exact h.symm
        subst hm
        refine ⟨0, by simp, rfl, ?_, fun q hq hq0 => absurd hq0 (by omega)⟩
        intro y hy
        rcases List.mem_cons.mp hy with hy | hy
        · subst hy; exact Nat.le_refl _
        · exact Nat.le_trans (Nat.le_of_not_lt hlt) (hmin' y hy)

theorem pyIndex_spec (a : Timestamp) :
    ∀ l : List Timestamp,
      (∃ p, ∃ hp : p < l.length, (l.get ⟨p, hp⟩).instant = a.instant) →
      ∃ i, ∃ hi : i < l.length, pyIndex a l = some i ∧
        (l.get ⟨i, hi⟩).instant = a.instant ∧
        ∀ j, ∀ hj : j < l.length, j < i → (l.get ⟨j, hj⟩).instant ≠ a.instant := by
  intro l
  induction l with
  | nil => rintro ⟨p, hp, -⟩; exact absurd hp (by simp)
  | cons x xs ih =>
    intro hex
    cases hx : (x.instant == a.instant) with
    | true =>
      refine ⟨0, by simp, by simp [pyIndex, hx], by simpa using beq_iff_eq.mp hx, ?_⟩
      intro j hj hj0
      exact absurd hj0 (by omega)
    | false =>
      have hxne : x.instant ≠ a.instant := by simpa using hx
      have hex' : ∃ p, ∃ hp : p < xs.length, (xs.get ⟨p, hp⟩).instant = a.instant := by
        obtain ⟨p, hp, hpa⟩ := hex
        cases p with
        | zero => exact absurd (by simpa using hpa) hxne
        | succ p' =>
          have hp' : p' < xs.length := by simpa using hp
          exact ⟨p', hp', by simpa using hpa⟩
      obtain ⟨i, hi, hpi, hgi, hfirst⟩ := ih hex'
      refine ⟨i + 1, by simpa using Nat.succ_lt_succ hi, ?_, by simpa using hgi, ?_⟩
      · simp [pyIndex, hx, hpi]
      · intro j hj hj1
        cases j with
        | zero => simpa using hxne
        | succ j' =>
          have hj' : j' < xs.length := by simpa using hj
          have : j' < i := by omega
          simpa using hfirst j' hj' this

theorem pyMin_isSome (key : Timestamp → Nat) (l : List Timestamp) (h : l ≠ []) :
    ∃ c, pyMin key l = some c := by
  cases l with
  | nil => exact absurd rfl h
  | cons x xs => exact ⟨_, rfl⟩

/-- Claim C2: for a non-empty forecast series, `_findClosestTimeIndex`
returns the index of an entry whose timestamp has minimum absolute
difference to the target, and on a tie it returns the first such entry in
series order (every strictly earlier index has a strictly larger absolute
difference). -/
theorem findClosestTimeIndex_spec (t : Timestamp) (m : METData)
    (hne : m.properties.timeseries ≠ []) :
    ∃ i, ∃ hi : i < m.properties.timeseries.length,
      findClosestTimeIndex t (some m) = .ok i ∧
      (∀ j, ∀ hj : j < m.properties.timeseries.length,
        ((m.properties.timeseries.get ⟨i, hi⟩).time.sub t).natAbs ≤
          ((m.properties.timeseries.get ⟨j, hj⟩).time.sub t).natAbs) ∧
      (∀ j, ∀ hj : j < m.properties.timeseries.length, j < i →
        ((m.properties.timeseries.get ⟨i, hi⟩).time.sub t).natAbs <
          ((m.properties.timeseries.get ⟨j, hj⟩).time.sub t).natAbs) := by
  have htne : m.properties.timeseries.map (fun e => e.time) ≠ [] := by
    intro hmap
    exact hne (List.map_eq_nil_iff.mp hmap)
  obtain ⟨c, hc⟩ := pyMin_isSome (fun x => (x.sub t).natAbs) _ htne
  obtain ⟨p, hp, hgp, hmin, hfirst⟩ := pyMin_first _ _ c hc
  obtain ⟨i, hi, hpi, hgi, hne2⟩ := pyIndex_spec c _ ⟨p, hp, by rw [hgp]⟩
  have hip : i ≤ p := by
    by_contra hcon
    push_neg at hcon
    exact (hne2 p hp hcon) (by rw [hgp])
  have hilen : i < m.properties.timeseries.length := by simpa using hi
  have hkeyi : (((m.properties.timeseries.get ⟨i, hilen⟩).time).sub t).natAbs =
      ((c.sub t).natAbs) := by
    have hget : (m.properties.timeseries.map (fun e => e.time)).get ⟨i, hi⟩ =
        (m.properties.timeseries.get ⟨i, hilen⟩).time := by
      simp [List.getElem_map, List.get_eq_getElem]
    have h2 := hgi
    rw [hget] at h2
    simp only [Timestamp.sub]
    rw [h2]
  refine ⟨i, hilen, ?_, ?_, ?_⟩
  · simp only [findClosestTimeIndex, hc, hpi]
  · intro j hj
    have hjm : j < (m.properties.timeseries.map (fun e => e.time)).length := by simpa using hj
    have hmem : (m.properties.timeseries.map (fun e => e.time)).get ⟨j, hjm⟩ ∈
        (m.properties.timeseries.map (fun e => e.time)) := List.get_mem _ _ _
    have hgetj : (m.properties.timeseries.map (fun e => e.time)).get ⟨j, hjm⟩ =
        (m.properties.timeseries.get ⟨j, hj⟩).time := by
      simp [List.getElem_map, List.get_eq_getElem]
    have := hmin _ hmem
    rw [hgetj] at this
    rw [hkeyi]
    exact this
  · intro j hj hji
    have hjm : j < (m.properties.timeseries.map (fun e => e.time)).length := by simpa using hj
    have hgetj : (m.properties.timeseries.map (fun e => e.time)).get ⟨j, hjm⟩ =
        (m.properties.timeseries.get ⟨j, hj⟩).time := by
      simp [List.getElem_map, List.get_eq_getElem]
    have hjp : j < p := by omega
    have := hfirst j hjm hjp
    rw [hgetj] at this
    rw [hkeyi]
    exact this

/-- Witness for claim C2: the spec applied to a concrete three-entry
forecast series (times 0, 3600, 7200 seconds) and the target 1800, which
is equidistant from the first two entries. -/
theorem findClosestTimeIndex_spec_witness :
    ∃ i, ∃ hi : i < sampleMET.properties.timeseries.length,
      findClosestTimeIndex ⟨1800, 0⟩ (some sampleMET) = .ok i ∧
      (∀ j, ∀ hj : j < sampleMET.properties.timeseries.length,
        ((sampleMET.properties.timeseries.get ⟨i, hi⟩).time.sub ⟨1800, 0⟩).natAbs ≤
          ((sampleMET.properties.timeseries.get ⟨j, hj⟩).time.sub ⟨1800, 0⟩).natAbs) ∧
      (∀ j, ∀ hj : j < sampleMET.properties.timeseries.length, j < i →
        ((sampleMET.properties.timeseries.get ⟨i, hi⟩).time.sub ⟨1800, 0⟩).natAbs <
          ((sampleMET.properties.timeseries.get ⟨j, hj⟩).time.sub ⟨1800, 0⟩).natAbs) :=
  findClosestTimeIndex_spec ⟨1800, 0⟩ sampleMET (by decide)

/-- The dictionary produced by `gpx2dict`: five parallel lists.  The code
stores timestamps as their raw ISO strings and parses them back with
`datetime.datetime.fromisoformat` in `shiftTimeGPX` and
`_findClosestTimeIndex`; since `fromisoformat ∘ isoformat` is the identity
on aware datetimes, the list carries the parsed values directly. -/
structure GpxDict where
  ele : List Rat
  time : List Timestamp
  lat : List Rat
  lon : List Rat
  distance : List Rat
deriving DecidableEq, Repr, Inhabited

/-- The `startTime` argument of `shiftTimeGPX` (line 219): either already a
`datetime.datetime` object, or a string still to be parsed. -/
inductive StartTime where
  | dt (d : Timestamp)
  | str (s : String)
deriving DecidableEq, Repr

/-- The time-shifting body of `shiftTimeGPX` (lines 223-234), applied once
the start is a datetime: convert the start to UTC, then
`time = [startTime + (t - time[0]) for t in time]`.  When the time list is
empty the comprehension never evaluates `time[0]`, exactly as `List.map`
never applies its function to anything. -/
def shiftTimeBody (gpxDict : GpxDict) (st : Timestamp) : GpxDict :=
  let startTime := st.toUTC
  let time := gpxDict.time
  { gpxDict with time := time.map (fun t => startTime.add (t.sub time.head!)) }

/-- Embeds `shiftTimeGPX` (lines 206-236).  `parseIso` stands for
`datetime.datetime.fromisoformat`, which raises `ValueError` (modelled as
`none`) on an unparsable string; it is only invoked when the argument is
not already a datetime. -/
def shiftTimeGPX (parseIso : String → Option Timestamp) (gpxDict : GpxDict)
    (startTime : StartTime) : Except PyErr GpxDict :=
  match startTime with
  | .dt d => .ok (shiftTimeBody gpxDict d)
  | .str s =>
    match parseIso s with
    | none => .error .valueError
    | some d => .ok (shiftTimeBody gpxDict d)

/-- Claim C3: for a non-empty track and a timezone-aware target start, the
shifter normalizes the start to UTC, shifts every timestamp by the single
constant offset between that normalized start and the first sample
timestamp, leaves the other four lists untouched, makes the first shifted
timestamp equal to the UTC-normalized start, and preserves all pairwise
instant differences. -/
theorem shiftTimeGPX_spec (parseIso : String → Option Timestamp) (g : GpxDict)
    (d : Timestamp) (hne : g.time ≠ []) :
    ∃ g', shiftTimeGPX parseIso g (.dt d) = .ok g' ∧
      g'.ele = g.ele ∧ g'.lat = g.lat ∧ g'.lon = g.lon ∧ g'.distance = g.distance ∧
      g'.time.length = g.time.length ∧
      g'.time.head? = some d.toUTC ∧
      (∀ i, ∀ hi : i < g.time.length, ∀ hi' : i < g'.time.length,
        (g'.time.get ⟨i, hi'⟩).instant =
          (g.time.get ⟨i, hi⟩).instant +
            (d.toUTC.instant - (g.time.head!).instant)) ∧
      (∀ i j, ∀ hi : i < g.time.length, ∀ hj : j < g.time.length,
        ∀ hi' : i < g'.time.length, ∀ hj' : j < g'.time.length,
        (g'.time.get ⟨i, hi'⟩).sub (g'.time.get ⟨j, hj'⟩) =
          (g.time.get ⟨i, hi⟩).sub (g.time.get ⟨j, hj⟩)) := by
  obtain ⟨t0, rest, htime⟩ : ∃ t0 rest, g.time = t0 :: rest := by
    cases hg : g.time with
    | nil => exact absurd hg hne
    | cons a l => exact ⟨a, l, rfl⟩
  refine ⟨shiftTimeBody g d, rfl, rfl, rfl, rfl, rfl, ?_, ?_, ?_, ?_⟩
  · simp [shiftTimeBody]
  · simp only [shiftTimeBody, htime]
    simp [Timestamp.add, Timestamp.sub, Timestamp.toUTC, List.head!]
  · intro i hi hi'
    simp only [shiftTimeBody] at hi' ⊢
    simp only [List.get_eq_getElem] at *
    simp only [List.getElem_map]
    simp [Timestamp.add, Timestamp.sub, Timestamp.toUTC]
    omega
  · intro i j hi hj hi' hj'
    simp only [shiftTimeBody] at hi' hj' ⊢
    simp only [List.get_eq_getElem] at *
    simp only [List.getElem_map]
    simp [Timestamp.add, Timestamp.sub, Timestamp.toUTC]

/-- Witness for claim C3 on a concrete two-sample track shifted to a
concrete aware start. -/
theorem shiftTimeGPX_spec_witness :
    ∃ g', shiftTimeGPX (fun _ => none)
        ⟨[100, 200], [⟨50, 3600⟩, ⟨650, 3600⟩], [60, 61], [10, 11], [0, 1]⟩
        (.dt ⟨7200, 3600⟩) = .ok g' ∧
      g'.ele = [100, 200] ∧ g'.lat = [60, 61] ∧ g'.lon = [10, 11] ∧
      g'.distance = [0, 1] ∧
      g'.time.length = ([⟨50, 3600⟩, ⟨650, 3600⟩] : List Timestamp).length ∧
      g'.time.head? = some (Timestamp.toUTC ⟨7200, 3600⟩) ∧
      (∀ i, ∀ hi : i < ([⟨50, 3600⟩, ⟨650, 3600⟩] : List Timestamp).length,
        ∀ hi' : i < g'.time.length,
        (g'.time.get ⟨i, hi'⟩).instant =
          (([⟨50, 3600⟩, ⟨650, 3600⟩] : List Timestamp).get ⟨i, hi⟩).instant +
            ((Timestamp.toUTC ⟨7200, 3600⟩).instant -
              (([⟨50, 3600⟩, ⟨650, 3600⟩] : List Timestamp).head!).instant)) ∧
      (∀ i j, ∀ hi : i < ([⟨50, 3600⟩, ⟨650, 3600⟩] : List Timestamp).length,
        ∀ hj : j < ([⟨50, 3600⟩, ⟨650, 3600⟩] : List Timestamp).length,
        ∀ hi' : i < g'.time.length, ∀ hj' : j < g'.time.length,
        (g'.time.get ⟨i, hi'⟩).sub (g'.time.get ⟨j, hj'⟩) =
          (([⟨50, 3600⟩, ⟨650, 3600⟩] : List Timestamp).get ⟨i, hi⟩).sub
            (([⟨50, 3600⟩, ⟨650, 3600⟩] : List Timestamp).get ⟨j, hj⟩)) :=
  shiftTimeGPX_spec (fun _ => none)
    ⟨[100, 200], [⟨50, 3600⟩, ⟨650, 3600⟩], [60, 61], [10, 11], [0, 1]⟩
    ⟨7200, 3600⟩ (by decide)

theorem gpx_update_time_self (g : GpxDict) : { g with time := g.time } = g := by
  cases g
  rfl

theorem shiftTimeBody_idem (g : GpxDict) (d : Timestamp) (hne : g.time ≠ []) :
    shiftTimeBody (shiftTimeBody g d) d = shiftTimeBody g d := by
  obtain ⟨t0, rest, htime⟩ : ∃ t0 rest, g.time = t0 :: rest := by
    cases hg : g.time with
    | nil => exact absurd hg hne
    | cons a l => exact ⟨a, l, rfl⟩
  have key : ∀ t : Timestamp,
      d.toUTC.add ((d.toUTC.add (t.sub t0)).sub (d.toUTC.add (t0.sub t0))) =
        d.toUTC.add (t.sub t0) := by
    intro t
    simp [Timestamp.add, Timestamp.sub, Timestamp.toUTC, Timestamp.mk.injEq]
  cases g with
  | mk ele time lat lon dist =>
    simp only at htime
    subst htime
    simp [shiftTimeBody, List.map_cons, List.head!, List.map_map,
      Function.comp_def, GpxDict.mk.injEq, key]

/-- Claim C9: for a non-empty track, applying `shiftTimeGPX` twice with the
same target start yields the same result as applying it once: a successful
shift re-applied to its own output returns that output unchanged. -/
theorem shiftTimeGPX_idempotent (parseIso : String → Option Timestamp)
    (g g' : GpxDict) (s : StartTime) (hne : g.time ≠ [])
    (h : shiftTimeGPX parseIso g s = .ok g') :
    shiftTimeGPX parseIso g' s = .ok g' := by
  cases s with
  | dt d =>
    have hg' : g' = shiftTimeBody g d := by
      simp [shiftTimeGPX] at h
      exact h.symm
    subst hg'
    simp [shiftTimeGPX, shiftTimeBody_idem g d hne]
  | str s =>
    cases hp : parseIso s with
    | none => simp [shiftTimeGPX, hp] at h
    | some d =>
      have hg' : g' = shiftTimeBody g d := by
        simp [shiftTimeGPX, hp] at h
        exact h.symm
      subst hg'
      simp [shiftTimeGPX, hp, shiftTimeBody_idem g d hne]

/-- Witness for claim C9 at a concrete one-sample track: shifting the
already-shifted track again with the same start leaves it unchanged. -/
theorem shiftTimeGPX_idempotent_witness :
    shiftTimeGPX (fun _ => none) ⟨[1], [⟨7200, 0⟩], [2], [3], [0]⟩
      (.dt ⟨7200, 3600⟩) = .ok ⟨[1], [⟨7200, 0⟩], [2], [3], [0]⟩ :=
  shiftTimeGPX_idempotent (fun _ => none) ⟨[1], [⟨50, 3600⟩], [2], [3], [0]⟩
    ⟨[1], [⟨7200, 0⟩], [2], [3], [0]⟩ (.dt ⟨7200, 3600⟩) (by decide) rfl

/-- Claim C8 (amended): the shifter raises `ValueError` when the target
start is a string that `fromisoformat` cannot parse (there is no dedicated
`InvalidStartTimeError` in the code); and on a track with zero samples it
does not fail at all — the empty comprehension never touches `time[0]` and
the track is returned unchanged. -/
theorem shiftTimeGPX_failure_spec (parseIso : String → Option Timestamp)
    (g : GpxDict) :
    (∀ s, parseIso s = none →
      shiftTimeGPX parseIso g (.str s) = .error .valueError) ∧
    (∀ d, g.time = [] → shiftTimeGPX parseIso g (.dt d) = .ok g) := by
  constructor
  · intro s hp
    simp [shiftTimeGPX, hp]
  · intro d h0
    cases g with
    | mk ele time lat lon dist =>
      simp only at h0
      subst h0
      simp [shiftTimeGPX, shiftTimeBody]

/-- Witness for claim C8's amended theorem: a concrete unparsable start
string raises `ValueError`, and a concrete zero-sample track passes
through unshifted. -/
theorem shiftTimeGPX_failure_spec_witness :
    shiftTimeGPX (fun _ => none) ⟨[], [], [], [], [0]⟩ (.str "not a time") =
      .error .valueError ∧
    shiftTimeGPX (fun _ => none) ⟨[], [], [], [], [0]⟩ (.dt ⟨3600, 3600⟩) =
      .ok ⟨[], [], [], [], [0]⟩ :=
  ⟨(shiftTimeGPX_failure_spec (fun _ => none) ⟨[], [], [], [], [0]⟩).1
      "not a time" rfl,
   (shiftTimeGPX_failure_spec (fun _ => none) ⟨[], [], [], [], [0]⟩).2
      ⟨3600, 3600⟩ rfl⟩

/-- Claim C8, counterexample: on a track with zero samples `shiftTimeGPX`
does not fail — it returns the empty track unchanged, rather than raising
any error (let alone an `InvalidStartTimeError`, which the code never
defines). -/
theorem shiftTimeGPX_empty_counterexample :
    shiftTimeGPX (fun _ => none) ⟨[], [], [], [], [0]⟩ (.dt ⟨0, 0⟩) =
      .ok ⟨[], [], [], [], [0]⟩ ∧
    shiftTimeGPX (fun _ => none) ⟨[], [], [], [], [0]⟩ (.dt ⟨0, 0⟩) ≠
      .error .invalidStartTimeError :=
  ⟨rfl, fun h => Except.noConfusion h⟩

/-- A value carried by an XML element's text node, as the program reads it:
a number for `ele` nodes (the code applies `float(text)`), an instant for
`time` nodes (the code appends the text and parses it later with
`fromisoformat`; the parsed value stands for the string). -/
inductive XVal where
  | num (q : Rat)
  | time (t : Timestamp)
deriving DecidableEq, Repr

/-- An element of the parsed XML tree (`xml.etree.ElementTree.Element`):
tag, attribute dictionary, optional text value, children.  The numeric
attributes (`lat`, `lon`) are carried already parsed, as none of the claims
exercises an unparsable attribute value. -/
inductive XmlElem where
  | node (tag : String) (attrib : List (String × Rat)) (text : Option XVal)
      (children : List XmlElem)
deriving Repr

def XmlElem.tag : XmlElem → String
  | .node t _ _ _ => t

def XmlElem.attrib : XmlElem → List (String × Rat)
  | .node _ a _ _ => a

def XmlElem.text : XmlElem → Option XVal
  | .node _ _ x _ => x

def XmlElem.children : XmlElem → List XmlElem
  | .node _ _ _ c => c

/-- Whether the first character list starts the second. -/
def leadsWith : List Char → List Char → Bool
  | [], _ => true
  | _ :: _, [] => false
  | a :: as, b :: bs => a == b && leadsWith as bs

/-- Whether `sub` occurs inside the second list: some suffix starts with
`sub`. -/
def hasSub (sub : List Char) : List Char → Bool
  | [] => sub.isEmpty
  | c :: cs => leadsWith sub (c :: cs) || hasSub sub cs

/-- Python's substring test `sub in s`, used by every tag check of the
parser (`'trk' in child.tag` and so on). -/
def strContains (sub s : String) : Bool := hasSub sub.data s.data

/-- The parser's tag check on one element. -/
def tagHas (sub : String) (e : XmlElem) : Bool := strContains sub e.tag

/-- The trackpoints the parser's nested loops reach: children of the root
whose tag contains `trk`, then their children whose tag contains `trkseg`,
then their children whose tag contains `trkpt` (lines 155-160; the same
traversal is repeated verbatim at lines 167-172 and 182-187). -/
def trackpts (root : XmlElem) : List XmlElem :=
  (root.children.filter (tagHas "trk")).bind (fun c =>
    (c.children.filter (tagHas "trkseg")).bind (fun s =>
      s.children.filter (tagHas "trkpt")))

/-- Sequential effectful map over a list — the loop-with-raise pattern: the
first raised exception aborts the whole computation. -/
def exceptMap {α β : Type} (f : α → Except PyErr β) : List α → Except PyErr (List β)
  | [] => .ok []
  | x :: xs =>
    match f x with
    | .error e => .error e
    | .ok y =>
      match exceptMap f xs with
      | .error e => .error e
      | .ok ys => .ok (y :: ys)

/-- Model of `float(child.text)` on an `ele` child (line 163): `TypeError`
when the text is missing (`float(None)`), `ValueError` when it is not
numeric. -/
def floatText (c : XmlElem) : Except PyErr Rat :=
  match c.text with
  | some (.num q) => .ok q
  | some (.time _) => .error .valueError
  | none => .error .typeError

/-- The text of a `time` child (line 177).  The code appends the raw string
and `shiftTimeGPX` parses it later; the model carries the parsed instant,
so a missing or non-instant text surfaces here instead of at the later
parse (no claim exercises either corner). -/
def timeText (c : XmlElem) : Except PyErr Timestamp :=
  match c.text with
  | some (.time t) => .ok t
  | some (.num _) => .error .valueError
  | none => .error .typeError

/-- The `ele` pass (lines 154-163): each reached trackpoint contributes
`float(text)` of every child whose tag contains `ele`, in document
order. -/
def elePass (root : XmlElem) : Except PyErr (List Rat) :=
  match exceptMap (fun p => exceptMap floatText (p.children.filter (tagHas "ele")))
      (trackpts root) with
  | .error e => .error e
  | .ok yss => .ok yss.join

/-- The `time` pass (lines 166-177): each reached trackpoint contributes
the text of every child whose tag contains `time`, in document order. -/
def timePass (root : XmlElem) : Except PyErr (List Timestamp) :=
  match exceptMap (fun p => exceptMap timeText (p.children.filter (tagHas "time")))
      (trackpts root) with
  | .error e => .error e
  | .ok yss => .ok yss.join

/-- The coordinate extraction of one reached trackpoint (lines 188-189):
the lat attribute lookup and then the lon attribute lookup on the point —
a missing attribute raises `KeyError`. -/
def latlonOf (p : XmlElem) : Except PyErr (Rat × Rat) :=
  match p.attrib.lookup "lat" with
  | none => .error .keyError
  | some la =>
    match p.attrib.lookup "lon" with
    | none => .error .keyError
    | some lo => .ok (la, lo)

/-- The cumulative-distance loop (lines 192-194): `distance = [0]`, then for
every further point append `distance[-1] + geodesic(previous, current)`.
`geopy.distance.geodesic(...).kilometers` is external and is passed in as
`d`. -/
def cumDist (d : Rat × Rat → Rat × Rat → Rat) : Rat → List (Rat × Rat) → List Rat
  | acc, [] => [acc]
  | acc, [_] => [acc]
  | acc, p :: q :: rest => acc :: cumDist d (acc + d p q) (q :: rest)

/-- Embeds `gpx2dict` (lines 135-204): the `ele` pass, then the `time`
pass, then the `lat`/`lon` pass over the reached trackpoints (erroring
exactly where the code raises, in the code's pass order), then the
cumulative geodesic distance accumulated from `[0]`. -/
def gpx2dict (d : Rat × Rat → Rat × Rat → Rat) (root : XmlElem) :
    Except PyErr GpxDict :=
  match elePass root with
  | .error e => .error e
  | .ok ele =>
    match timePass root with
    | .error e => .error e
    | .ok time =>
      match exceptMap latlonOf (trackpts root) with
      | .error e => .error e
      | .ok ll =>
        .ok ⟨ele, time, ll.map Prod.fst, ll.map Prod.snd, cumDist d 0 ll⟩

/-- Well-formedness of a reached trackpoint's child nodes: exactly one
`ele` child holding a number and exactly one `time` child holding an
instant. -/
def validTexts (p : XmlElem) : Bool :=
  (match p.children.filter (tagHas "ele") with
    | [c] => (match c.text with | some (.num _) => true | _ => false)
    | _ => false) &&
  (match p.children.filter (tagHas "time") with
    | [c] => (match c.text with | some (.time _) => true | _ => false)
    | _ => false)

/-- A valid reached trackpoint: carries `lat` and `lon` attributes and
well-formed `ele`/`time` children. -/
def validPoint (p : XmlElem) : Bool :=
  (p.attrib.lookup "lat").isSome && (p.attrib.lookup "lon").isSome && validTexts p

/-- Valid track markup: every reached trackpoint is valid. -/
def validDoc (root : XmlElem) : Bool := (trackpts root).all validPoint

theorem exceptMap_ok_of_all {α β : Type} (f : α → Except PyErr β) (P : β → Prop) :
    ∀ l : List α, (∀ x ∈ l, ∃ y, f x = .ok y ∧ P y) →
      ∃ ys, exceptMap f l = .ok ys ∧ ys.length = l.length ∧ ∀ y ∈ ys, P y := by
  intro l
  induction l with
  | nil => intro _; exact ⟨[], rfl, rfl, by simp⟩
  | cons x xs ih =>
    intro h
    obtain ⟨y, hy, hPy⟩ := h x (by simp)
    obtain ⟨ys, hys, hlen, hP⟩ := ih (fun a ha => h a (by simp [ha]))
    refine ⟨y :: ys, by simp [exceptMap, hy, hys], by simp [hlen], ?_⟩
    intro z hz
    rcases List.mem_cons.mp hz with hz | hz
    · subst hz; exact hPy
    · exact hP z hz

theorem exceptMap_error_of_mem {α β : Type} (f : α → Except PyErr β) (E : PyErr) :
    ∀ l : List α, (∀ x ∈ l, f x = .error E ∨ ∃ y, f x = .ok y) →
      (∃ x ∈ l, f x = .error E) → exceptMap f l = .error E := by
  intro l
  induction l with
  | nil =>
    rintro - ⟨x, hx, -⟩
    simp at hx
  | cons a as ih =>
    rintro hall ⟨x, hx, hfx⟩
    rcases hall a (by simp) with ha | ⟨y, hy⟩
    · simp [exceptMap, ha]
    · rcases List.mem_cons.mp hx with hxa | hx2
      · subst hxa
        rw [hfx] at hy
        exact Except.noConfusion hy
      · have htail : exceptMap f as = .error E :=
          ih (fun z hz => hall z (by simp [hz])) ⟨x, hx2, hfx⟩
        simp [exceptMap, hy, htail]

theorem join_length_of_singletons {α : Type} :
    ∀ yss : List (List α), (∀ zs ∈ yss, zs.length = 1) →
      yss.join.length = yss.length := by
  intro yss
  induction yss with
  | nil => intro _; rfl
  | cons zs yss ih =>
    intro h
    have h1 : zs.length = 1 := h zs (by simp)
    have h2 := ih (fun a ha => h a (by simp [ha]))
    show (zs ++ yss.join).length = yss.length + 1
    rw [List.length_append, h1, h2]
    omega

theorem cumDist_head (d : Rat × Rat → Rat × Rat → Rat) (acc : Rat) :
    ∀ pts : List (Rat × Rat), (cumDist d acc pts).head? = some acc
  | [] => rfl
  | [_] => rfl
  | _ :: _ :: _ => rfl

theorem cumDist_length (d : Rat × Rat → Rat × Rat → Rat) :
    ∀ (pts : List (Rat × Rat)) (acc : Rat),
      (cumDist d acc pts).length = max 1 pts.length := by
  intro pts
  induction pts with
  | nil => intro acc; rfl
  | cons p rest ih =>
    intro acc
    cases rest with
    | nil => rfl
    | cons q rest2 =>
      simp only [cumDist, List.length_cons]
      rw [ih]
      simp only [List.length_cons]
      omega

theorem cumDist_chain (d : Rat × Rat → Rat × Rat → Rat)
    (hd : ∀ p q, 0 ≤ d p q) :
    ∀ (pts : List (Rat × Rat)) (acc : Rat),
      List.Chain' (fun a b : Rat => a ≤ b) (cumDist d acc pts) := by
  intro pts
  induction pts with
  | nil => intro acc; simp [cumDist]
  | cons p rest ih =>
    intro acc
    cases rest with
    | nil => simp [cumDist]
    | cons q rest2 =>
      simp only [cumDist]
      apply List.chain'_cons'.mpr
      constructor
      · intro y hy
        rw [cumDist_head] at hy
        have hcy : acc + d p q = y := by simpa using hy
        rw [← hcy]
        exact le_add_of_nonneg_right (hd p q)
      · exact ih (acc + d p q)

theorem validTexts_ele (p : XmlElem) (h : validTexts p = true) :
    ∃ c q, p.children.filter (tagHas "ele") = [c] ∧ c.text = some (.num q) := by
  simp only [validTexts, Bool.and_eq_true] at h
  obtain ⟨h1, -⟩ := h
  cases hf : p.children.filter (tagHas "ele") with
  | nil => rw [hf] at h1; simp at h1
  | cons c rest =>
    cases rest with
    | cons c2 r => rw [hf] at h1; simp at h1
    | nil =>
      rw [hf] at h1
      cases ht : c.text with
      | none => simp [ht] at h1
      | some v =>
        cases v with
        | num q => exact ⟨c, q, rfl, ht⟩
        | time t => simp [ht] at h1

theorem validTexts_time (p : XmlElem) (h : validTexts p = true) :
    ∃ c t, p.children.filter (tagHas "time") = [c] ∧ c.text = some (.time t) := by
  simp only [validTexts, Bool.and_eq_true] at h
  obtain ⟨-, h2⟩ := h
  cases hf : p.children.filter (tagHas "time") with
  | nil => rw [hf] at h2; simp at h2
  | cons c rest =>
    cases rest with
    | cons c2 r => rw [hf] at h2; simp at h2
    | nil =>
      rw [hf] at h2
      cases ht : c.text with
      | none => simp [ht] at h2
      | some v =>
        cases v with
        | num q => simp [ht] at h2
        | time t => exact ⟨c, t, rfl, ht⟩

theorem validPoint_parts (p : XmlElem) (h : validPoint p = true) :
    (p.attrib.lookup "lat").isSome = true ∧ (p.attrib.lookup "lon").isSome = true ∧
      validTexts p = true := by
  simp only [validPoint, Bool.and_eq_true] at h
  tauto

theorem latlonOf_error_or_ok (p : XmlElem) :
    latlonOf p = .error .keyError ∨ ∃ y, latlonOf p = .ok y := by
  unfold latlonOf
  cases p.attrib.lookup "lat" with
  | none => left; rfl
  | some la =>
    cases p.attrib.lookup "lon" with
    | none => left; rfl
    | some lo => right; exact ⟨(la, lo), rfl⟩

theorem latlonOf_ok (p : XmlElem) (hla : (p.attrib.lookup "lat").isSome = true)
    (hlo : (p.attrib.lookup "lon").isSome = true) : ∃ y, latlonOf p = .ok y := by
  obtain ⟨la, h1⟩ := Option.isSome_iff_exists.mp hla
  obtain ⟨lo, h2⟩ := Option.isSome_iff_exists.mp hlo
  exact ⟨(la, lo), by simp [latlonOf, h1, h2]⟩

theorem latlonOf_keyError (p : XmlElem)
    (h : p.attrib.lookup "lat" = none ∨ p.attrib.lookup "lon" = none) :
    latlonOf p = .error .keyError := by
  rcases h with h | h
  · simp [latlonOf, h]
  · cases hla : p.attrib.lookup "lat" with
    | none => simp [latlonOf, hla]
    | some la => simp [latlonOf, hla, h]

theorem elePass_ok_of_valid (root : XmlElem)
    (htx : ∀ p ∈ trackpts root, validTexts p = true) :
    ∃ ele, elePass root = .ok ele ∧ ele.length = (trackpts root).length := by
  obtain ⟨yss, hyss, hlen, hP⟩ := exceptMap_ok_of_all
    (fun p => exceptMap floatText (p.children.filter (tagHas "ele")))
    (fun ys => ys.length = 1) (trackpts root) (fun p hp => by
      obtain ⟨c, q, hf, ht⟩ := validTexts_ele p (htx p hp)
      exact ⟨[q], by simp [hf, exceptMap, floatText, ht], rfl⟩)
  refine ⟨yss.join, by simp [elePass, hyss], ?_⟩
  rw [join_length_of_singletons yss hP, hlen]

theorem timePass_ok_of_valid (root : XmlElem)
    (htx : ∀ p ∈ trackpts root, validTexts p = true) :
    ∃ time, timePass root = .ok time ∧ time.length = (trackpts root).length := by
  obtain ⟨yss, hyss, hlen, hP⟩ := exceptMap_ok_of_all
    (fun p => exceptMap timeText (p.children.filter (tagHas "time")))
    (fun ys => ys.length = 1) (trackpts root) (fun p hp => by
      obtain ⟨c, t, hf, ht⟩ := validTexts_time p (htx p hp)
      exact ⟨[t], by simp [hf, exceptMap, timeText, ht], rfl⟩)
  refine ⟨yss.join, by simp [timePass, hyss], ?_⟩
  rw [join_length_of_singletons yss hP, hlen]

/-- Claim C6 (amended): for every valid track markup with N reached
trackpoints and a nonnegative geodesic distance function, the parser
succeeds; the elevation, timestamp, latitude and longitude sequences each
have length N in document order; the cumulative-distance sequence has
length `max 1 N` (length N whenever N ≥ 1, but length 1 — the single
element 0 — when N = 0), starts at 0 and is monotonically
non-decreasing. -/
theorem gpx2dict_spec (d : Rat × Rat → Rat × Rat → Rat)
    (hd : ∀ p q, 0 ≤ d p q) (root : XmlElem) (hv : validDoc root = true) :
    ∃ g, gpx2dict d root = .ok g ∧
      g.ele.length = (trackpts root).length ∧
      g.time.length = (trackpts root).length ∧
      g.lat.length = (trackpts root).length ∧
      g.lon.length = (trackpts root).length ∧
      g.distance.length = max 1 (trackpts root).length ∧
      g.distance.head? = some 0 ∧
      List.Chain' (fun a b : Rat => a ≤ b) g.distance := by
  have hvp : ∀ p ∈ trackpts root, validPoint p = true := fun p hp =>
    List.all_eq_true.mp hv p hp
  have htx : ∀ p ∈ trackpts root, validTexts p = true := fun p hp =>
    (validPoint_parts p (hvp p hp)).2.2
  obtain ⟨ele, hele, helen⟩ := elePass_ok_of_valid root htx
  obtain ⟨time, htime, htlen⟩ := timePass_ok_of_valid root htx
  obtain ⟨ll, hll, hlllen, -⟩ := exceptMap_ok_of_all latlonOf (fun _ => True)
    (trackpts root) (fun p hp => by
      obtain ⟨hla, hlo, -⟩ := validPoint_parts p (hvp p hp)
      obtain ⟨y, hy⟩ := latlonOf_ok p hla hlo
      exact ⟨y, hy, trivial⟩)
  refine ⟨⟨ele, time, ll.map Prod.fst, ll.map Prod.snd, cumDist d 0 ll⟩,
    by simp [gpx2dict, hele, htime, hll], helen, htlen,
    by simp [hlllen], by simp [hlllen], ?_, cumDist_head d 0 ll,
    cumDist_chain d hd ll 0⟩
  simp [cumDist_length, hlllen]

/-- A concrete valid two-point GPX document. -/
def validDocSample : XmlElem :=
  .node "gpx" [] none [.node "trk" [] none [.node "trkseg" [] none
    [.node "trkpt" [("lat", 60), ("lon", 10)] none
      [.node "ele" [] (some (.num 500)) [],
       .node "time" [] (some (.time ⟨0, 0⟩)) []],
     .node "trkpt" [("lat", 61), ("lon", 11)] none
      [.node "ele" [] (some (.num 600)) [],
       .node "time" [] (some (.time ⟨60, 0⟩)) []]]]]

/-- Witness for claim C6's amended theorem on a concrete valid two-point
document with the constant-zero distance function. -/
theorem gpx2dict_spec_witness :
    ∃ g, gpx2dict (fun _ _ => 0) validDocSample = .ok g ∧
      g.ele.length = (trackpts validDocSample).length ∧
      g.time.length = (trackpts validDocSample).length ∧
      g.lat.length = (trackpts validDocSample).length ∧
      g.lon.length = (trackpts validDocSample).length ∧
      g.distance.length = max 1 (trackpts validDocSample).length ∧
      g.distance.head? = some 0 ∧
      List.Chain' (fun a b : Rat => a ≤ b) g.distance :=
  gpx2dict_spec (fun _ _ => 0) (fun _ _ => le_refl 0) validDocSample rfl

/-- A GPX document with zero trackpoints (an empty track segment). -/
def emptySegDoc : XmlElem :=
  .node "gpx" [] none [.node "trk" [] none [.node "trkseg" [] none []]]

/-- Claim C6, counterexample: on valid markup with N = 0 trackpoints the
parser succeeds with four empty sequences, but the cumulative-distance
sequence is `[0]` of length 1 ≠ N — the claim's "each have length N" fails
at N = 0. -/
theorem gpx2dict_zero_points_counterexample :
    gpx2dict (fun _ _ => 0) emptySegDoc = .ok ⟨[], [], [], [], [0]⟩ ∧
    (trackpts emptySegDoc).length = 0 ∧
    (GpxDict.distance ⟨[], [], [], [], [0]⟩).length ≠ (trackpts emptySegDoc).length :=
  ⟨rfl, rfl, by decide⟩

/-- Claim C7 (amended): when every reached trackpoint has well-formed
`ele`/`time` children but some reached trackpoint lacks a `lat` or `lon`
attribute, the parser raises `KeyError` (not a dedicated
`MalformedTrackError`, which the code never defines) — it does not
silently skip the point.  Absent structural nesting, however, does not
make the parser fail: see the counterexample. -/
theorem gpx2dict_missing_latlon (d : Rat × Rat → Rat × Rat → Rat) (root : XmlElem)
    (hvt : (trackpts root).all validTexts = true)
    (hbad : (trackpts root).any
      (fun p => (p.attrib.lookup "lat").isNone || (p.attrib.lookup "lon").isNone) = true) :
    gpx2dict d root = .error .keyError := by
  have htx : ∀ p ∈ trackpts root, validTexts p = true := fun p hp =>
    List.all_eq_true.mp hvt p hp
  obtain ⟨ele, hele, -⟩ := elePass_ok_of_valid root htx
  obtain ⟨time, htime, -⟩ := timePass_ok_of_valid root htx
  have herr : exceptMap latlonOf (trackpts root) = .error .keyError := by
    apply exceptMap_error_of_mem latlonOf PyErr.keyError (trackpts root)
      (fun x _ => latlonOf_error_or_ok x)
    obtain ⟨p, hp, hmiss⟩ := List.any_eq_true.mp hbad
    refine ⟨p, hp, latlonOf_keyError p ?_⟩
    simpa [Option.isNone_iff_eq_none] using hmiss
  simp [gpx2dict, hele, htime, herr]

/-- A document whose single (properly nested) trackpoint lacks the `lat`
attribute. -/
def missingLatDoc : XmlElem :=
  .node "gpx" [] none [.node "trk" [] none [.node "trkseg" [] none
    [.node "trkpt" [("lon", 10)] none
      [.node "ele" [] (some (.num 500)) [],
       .node "time" [] (some (.time ⟨0, 0⟩)) []]]]]

/-- Witness for claim C7's amended theorem: the concrete document with a
missing `lat` makes the parser raise `KeyError`. -/
theorem gpx2dict_missing_latlon_witness :
    gpx2dict (fun _ _ => 0) missingLatDoc = .error .keyError :=
  gpx2dict_missing_latlon (fun _ _ => 0) missingLatDoc rfl rfl

/-- A document whose trackpoint sits directly under `trk` with no `trkseg`
between them — the required structural nesting is absent. -/
def misNestedDoc : XmlElem :=
  .node "gpx" [] none [.node "trk" [] none
    [.node "trkpt" [("lat", 60), ("lon", 10)] none
      [.node "ele" [] (some (.num 500)) [],
       .node "time" [] (some (.time ⟨0, 0⟩)) []]]]

/-- Claim C7, counterexample: with the required nesting absent (a trackpoint
directly under `trk`), the parser does not fail at all — the mis-nested
trackpoint is skipped entirely and an empty track is returned, contradicting
"fails with MalformedTrackError". -/
theorem gpx2dict_misnested_counterexample :
    gpx2dict (fun _ _ => 0) misNestedDoc = .ok ⟨[], [], [], [], [0]⟩ ∧
    gpx2dict (fun _ _ => 0) misNestedDoc ≠ .error .malformedTrackError :=
  ⟨rfl, fun h => Except.noConfusion h⟩

/-- The observable behaviour of one `_METurlRequstFunction` call: its
outcome, the `time.sleep` delays issued (in seconds, in order), and how
many HTTP requests were attempted. -/
structure FetchTrace where
  result : Except PyErr (Option METData)
  sleeps : List Nat
  attempts : Nat
deriving Repr

/-- The retry loop of `_METurlRequstFunction` (lines 244-251): for
`i in range(max_retries)` attempt the request (`req i = none` models a
`requests.exceptions.RequestException`); on success return the JSON; on
failure `time.sleep(5*(i+1))` and continue. After the loop the code prints
the URL and then interpolates `e` into a second print — but Python 3
deletes the `except` target at the end of each handler, so that
interpolation raises `NameError` and the `return None` on line 255 is
never reached. -/
def metRetryLoop (req : Nat → Option METData) :
    Nat → Nat → List Nat → Nat → FetchTrace
  | _, 0, sleeps, att => ⟨.error .nameError, sleeps.reverse, att⟩
  | i, fuel + 1, sleeps, att =>
    match req i with
    | some j => ⟨.ok (some j), sleeps.reverse, att + 1⟩
    | none => metRetryLoop req (i + 1) fuel (5 * (i + 1) :: sleeps) (att + 1)

/-- Embeds `_METurlRequstFunction` (lines 238-255), `max_retries = 5`. -/
def METurlRequstFunction (req : Nat → Option METData) : FetchTrace :=
  metRetryLoop req 0 5 [] 0

/-- Claim C5, the code's behaviour at the failing input: when every attempt
raises a request exception, the fetcher makes exactly 5 attempts, sleeping
a linearly increasing 5·1, …, 5·5 seconds (base 5 times the attempt
number — including after the final attempt), and then raises `NameError`
at the error print instead of returning the declared `None` fallback,
because the `except` target `e` no longer exists after the handler. -/
theorem METurlRequstFunction_all_fail :
    METurlRequstFunction (fun _ => none) =
      ⟨.error .nameError, [5, 10, 15, 20, 25], 5⟩ := rfl

theorem metRetryLoop_attempts_le (req : Nat → Option METData) :
    ∀ (fuel i : Nat) (sleeps : List Nat) (att : Nat),
      (metRetryLoop req i fuel sleeps att).attempts ≤ att + fuel := by
  intro fuel
  induction fuel with
  | zero => intro i sleeps att; simp [metRetryLoop]
  | succ f ih =>
    intro i sleeps att
    simp only [metRetryLoop]
    cases req i with
    | some j => simp
    | none =>
      have := ih (i + 1) (5 * (i + 1) :: sleeps) (att + 1)
      simp at this ⊢
      omega

/-- At most 5 request attempts are ever made per call. -/
theorem METurlRequstFunction_attempts_le (req : Nat → Option METData) :
    (METurlRequstFunction req).attempts ≤ 5 :=
  metRetryLoop_attempts_le req 5 0 [] 0

/-- The six parallel output lists built by the `appendMET2GPX` loop (lines
303-308, appended at 320-325). -/
structure MetAcc where
  temp_low : List Rat
  temp_high : List Rat
  humidity : List Rat
  wind_speed : List Rat
  cloud_area_fraction : List Rat
  wind_from_direction : List Rat
deriving DecidableEq, Repr

/-- The empty accumulators of lines 303-308. -/
def emptyMetAcc : MetAcc := ⟨[], [], [], [], [], []⟩

/-- One round of appends (lines 320-325). -/
def accAppend (acc : MetAcc) (dts : InstantDetails) : MetAcc :=
  ⟨acc.temp_low ++ [dts.air_temperature_percentile_10],
   acc.temp_high ++ [dts.air_temperature_percentile_90],
   acc.humidity ++ [dts.relative_humidity],
   acc.wind_speed ++ [dts.wind_speed],
   acc.cloud_area_fraction ++ [dts.cloud_area_fraction],
   acc.wind_from_direction ++ [dts.wind_from_direction]⟩

/-- The per-sample body of the `appendMET2GPX` loop (lines 310-325): build
the fingerprint, get-or-fetch the MET payload, find the forecast entry
nearest to the sample's time, and read the six detail fields of that
entry. -/
def metPointStep (fetch : Rat → Rat → Rat → Except PyErr (Option METData))
    (fresh : Bool) (la lo el : Rat) (t : Timestamp) (cache : METCache) :
    Except PyErr (InstantDetails × METCache) :=
  match cacheStep fresh cache (METDataKey la lo el) (fun _ => fetch la lo el) with
  | .error e => .error e
  | .ok (outputMET, cache2) =>
    match findClosestTimeIndex t outputMET, outputMET with
    | .error e, _ => .error e
    | .ok _, none => .error .typeError
    | .ok index, some m =>
      match m.properties.timeseries.get? index with
      | none => .error .indexError
      | some entry => .ok (entry.data.instant.details, cache2)

/-- The four subscripts of the lat, lon, ele and time lists at index `i`
taken by one loop iteration (lines 310-318); a subscript out of range
raises `IndexError`. -/
def sampleAt (g : GpxDict) (i : Nat) :
    Except PyErr (Rat × Rat × Rat × Timestamp) :=
  match g.lat.get? i, g.lon.get? i, g.ele.get? i, g.time.get? i with
  | some la, some lo, some el, some t => .ok (la, lo, el, t)
  | _, _, _, _ => .error .indexError

/-- The loop over `range` of the lat-list length (line 309), given the
remaining indices. -/
def metPointsLoop (fetch : Rat → Rat → Rat → Except PyErr (Option METData))
    (fresh : Bool) (g : GpxDict) :
    List Nat → METCache → MetAcc → Except PyErr (MetAcc × METCache)
  | [], cache, acc => .ok (acc, cache)
  | i :: rest, cache, acc =>
    match sampleAt g i with
    | .error e => .error e
    | .ok (la, lo, el, t) =>
      match metPointStep fetch fresh la lo el t cache with
      | .error e => .error e
      | .ok (dts, cache2) =>
        metPointsLoop fetch fresh g rest cache2 (accAppend acc dts)

/-- Embeds `appendMET2GPX` (lines 280-342): load-or-reset the cache, run
the per-sample loop over every index, then attach the six new lists; the
final cache value stands for the pickle dumped at lines 339-340. -/
def appendMET2GPX (fetch : Rat → Rat → Rat → Except PyErr (Option METData))
    (g : GpxDict) (freshArg : Bool) (pickleFile : Option METCache) :
    Except PyErr (GpxDict × MetAcc × METCache) :=
  match loadCache freshArg pickleFile with
  | (fresh, METdata) =>
    match metPointsLoop fetch fresh g (List.range g.lat.length) METdata emptyMetAcc with
    | .error e => .error e
    | .ok (acc, cache) => .ok (g, acc, cache)

theorem sampleAt_ok (g : GpxDict) (i : Nat) (la lo el : Rat) (t : Timestamp)
    (h : sampleAt g i = .ok (la, lo, el, t)) :
    g.lat.get? i = some la ∧ g.lon.get? i = some lo ∧ g.ele.get? i = some el ∧
      g.time.get? i = some t := by
  unfold sampleAt at h
  cases h1 : g.lat.get? i with
  | none => rw [h1] at h; simp at h
  | some a =>
    rw [h1] at h
    cases h2 : g.lon.get? i with
    | none => rw [h2] at h; simp at h
    | some b =>
      rw [h2] at h
      cases h3 : g.ele.get? i with
      | none => rw [h3] at h; simp at h
      | some c =>
        rw [h3] at h
        cases h4 : g.time.get? i with
        | none => rw [h4] at h; simp at h
        | some tt =>
          rw [h4] at h
          simp at h
          obtain ⟨ha, hb, hc, htt⟩ := h
          exact ⟨by rw [ha], by rw [hb], by rw [hc], by rw [htt]⟩

theorem metPointStep_ok_fetch (fetch : Rat → Rat → Rat → Except PyErr (Option METData))
    (la lo el : Rat) (t : Timestamp) (cache : METCache)
    (dc : InstantDetails × METCache)
    (h : metPointStep fetch true la lo el t cache = .ok dc) :
    ∃ v, fetch la lo el = .ok v := by
  cases hf : fetch la lo el with
  | ok v => exact ⟨v, rfl⟩
  | error e =>
    simp [metPointStep, cacheStep, hf] at h

theorem metPointsLoop_ok_fetch (fetch : Rat → Rat → Rat → Except PyErr (Option METData))
    (g : GpxDict) :
    ∀ (idxs : List Nat) (cache : METCache) (acc : MetAcc) (r : MetAcc × METCache),
      metPointsLoop fetch true g idxs cache acc = .ok r →
      ∀ i ∈ idxs, ∀ la lo el t, sampleAt g i = .ok (la, lo, el, t) →
        ∃ v, fetch la lo el = .ok v := by
  intro idxs
  induction idxs with
  | nil =>
    intro cache acc r h i hi
    simp at hi
  | cons j rest ih =>
    intro cache acc r h i hi la lo el t hs
    simp only [metPointsLoop] at h
    rcases List.mem_cons.mp hi with rfl | hi2
    · rw [hs] at h
      simp only [] at h
      cases hstep : metPointStep fetch true la lo el t cache with
      | error e => rw [hstep] at h; simp at h
      | ok dc => exact metPointStep_ok_fetch fetch la lo el t cache dc hstep
    · cases hsj : sampleAt g j with
      | error e => rw [hsj] at h; simp at h
      | ok q =>
        obtain ⟨ja, jb, jc, jt⟩ := q
        rw [hsj] at h
        simp only [] at h
        cases hstep : metPointStep fetch true ja jb jc jt cache with
        | error e => rw [hstep] at h; simp at h
        | ok dc =>
          rw [hstep] at h
          simp only [] at h
          obtain ⟨dts, cache2⟩ := dc
          exact ih _ _ _ h i hi2 la lo el t hs

/-- Claim C4 (amended): when fresh mode is in force (requested, or forced
because no persisted cache exists) and the weather fetch fails for some
sample of the track — in particular when the underlying request fails on
every attempt, which makes `_METurlRequstFunction` raise `NameError` —
`appendMET2GPX` aborts with an uncaught exception: no assembled profile is
produced and no field of any sample is filled with a default or
placeholder value. -/
theorem appendMET2GPX_fetch_failure
    (fetch : Rat → Rat → Rat → Except PyErr (Option METData)) (g : GpxDict)
    (freshArg : Bool) (pickleFile : Option METCache)
    (hfresh : (loadCache freshArg pickleFile).1 = true)
    (i : Nat) (hi : i < g.lat.length) (la lo el : Rat) (t : Timestamp)
    (hs : sampleAt g i = .ok (la, lo, el, t))
    (hfail : ∀ v, fetch la lo el ≠ .ok v) :
    ∃ e, appendMET2GPX fetch g freshArg pickleFile = .error e := by
  rcases hl : loadCache freshArg pickleFile with ⟨fr, c0⟩
  have hfr : fr = true := by rw [hl] at hfresh; exact hfresh
  subst hfr
  cases hloop : metPointsLoop fetch true g (List.range g.lat.length) c0 emptyMetAcc with
  | error e => exact ⟨e, by simp [appendMET2GPX, hl, hloop]⟩
  | ok ac =>
    obtain ⟨v, hv⟩ := metPointsLoop_ok_fetch fetch g (List.range g.lat.length)
      c0 emptyMetAcc ac hloop i (List.mem_range.mpr hi) la lo el t hs
    exact absurd hv (hfail v)

/-- Witness for claim C4's amended theorem: a one-sample track whose
underlying request fails on every attempt (the fetch argument is the
composed retry function, which ends in `NameError`): the run aborts with
an error and no profile results. -/
theorem appendMET2GPX_fetch_failure_witness :
    ∃ e, appendMET2GPX (fun _ _ _ => (METurlRequstFunction (fun _ => none)).result)
      ⟨[500], [⟨0, 0⟩], [60], [10], [0]⟩ false none = .error e :=
  appendMET2GPX_fetch_failure
    (fun _ _ _ => (METurlRequstFunction (fun _ => none)).result)
    ⟨[500], [⟨0, 0⟩], [60], [10], [0]⟩ false none rfl 0 (by decide)
    60 10 500 ⟨0, 0⟩ rfl (fun v h => Except.noConfusion h)

/-- Claim C4, counterexample: with a one-sample track and an underlying
request failing on every attempt, the run aborts with `NameError` (raised
at the fetcher's error print), not with a `WeatherUnavailableError` — no
such class exists anywhere in the code. -/
theorem appendMET2GPX_counterexample :
    appendMET2GPX (fun _ _ _ => (METurlRequstFunction (fun _ => none)).result)
      ⟨[500], [⟨0, 0⟩], [60], [10], [0]⟩ false none = .error .nameError ∧
    appendMET2GPX (fun _ _ _ => (METurlRequstFunction (fun _ => none)).result)
      ⟨[500], [⟨0, 0⟩], [60], [10], [0]⟩ false none ≠
      .error .weatherUnavailableError :=
  ⟨rfl, fun h => PyErr.noConfusion (Except.error.inj h)⟩
